import Mathlib

/-!
Verification development for `observer.py` of the folder_observer repository.

The Python source is shallowly embedded:

* Python string primitives (`str.lower`, `str.split(sep)[-1]`, `str.replace`,
  `os.path.join`) are translated character-by-character as executable Lean
  functions (`pyLower`, `pySplit`, `String.replace`, `osJoin`) with Python's
  semantics (splitting keeps empty segments, `split` of the empty string is
  `[""]`).
* `ExtensionMapper` carries its mutable dict `known_types` as a functional map
  `String → Option String`; methods return the updated mapper explicitly
  together with the number of remote HTTP requests issued, so memoization
  claims are statements about that counter.
* The whole `try: requests.get(...); resp.content.decode(); re.findall(...)[0]`
  block of `download_info` is abstracted as an oracle
  `http : String → Option String` from the request URL to the first extracted
  match; `none` models any failure of that block (network error, decode error,
  no regex match).
* The filesystem is a flat map `FS := String → Option Entry`; the syscalls
  used by `NewFileHander.on_modified` (`pathlib.Path(...).mkdir`, `os.rename`,
  `os.symlink`, `os.remove`) act on it via `mkdirFS`, `renameFS`, `symlinkFS`,
  `removeFS`, and a `SysOracle` of booleans decides whether each fallible
  syscall succeeds or raises.  `on_modified` returns a `HandlerRun` recording
  the snapshot of the filesystem after every mutating syscall (`trace`), the
  outcome (`Except`: `.error` models a Python exception escaping the handler),
  the updated mapper, the number of remote lookups, and whether the resolver
  and the rename were reached.
* The exclusion regexes are abstracted as boolean predicates on the base
  name: each element of `excluded` is the semantics of Python's
  `re.match pattern` (anchored at the start of the string) for one configured
  pattern.  `time.sleep` has no effect on any modelled state and is noted by
  comments only.
-/

/-- Python single-character-separator `str.split` on a list of characters:
splits at every occurrence of `sep`, keeping empty segments, and returns at
least one (possibly empty) segment. -/
def pySplitList (sep : Char) : List Char → List (List Char)
  | [] => [[]]
  | c :: cs =>
    if c = sep then [] :: pySplitList sep cs
    else
      match pySplitList sep cs with
      | [] => [[c]]
      | h :: t => (c :: h) :: t

/-- Python `str.split(sep)` for a single-character separator. -/
def pySplit (sep : Char) (s : String) : List String :=
  (pySplitList sep s.data).map String.mk

/-- Python `str.lower()` (ASCII case folding, as used by the source). -/
def pyLower (s : String) : String :=
  String.mk (s.data.map Char.toLower)

/-- Python `str.replace(old, new)` on lists of characters: replaces every
non-overlapping occurrence of `old` from left to right.  `fuel` bounds the
recursion depth structurally; with `fuel = xs.length` it never runs out,
since every step consumes at least one character. -/
def pyReplaceAux (old new : List Char) : Nat → List Char → List Char
  | _, [] => []
  | 0, c :: cs => c :: cs
  | fuel + 1, c :: cs =>
    if old ≠ [] ∧ old.isPrefixOf (c :: cs) then
      new ++ pyReplaceAux old new fuel (cs.drop (old.length - 1))
    else
      c :: pyReplaceAux old new fuel cs

/-- Python `str.replace(old, new)`. -/
def pyReplace (s old new : String) : String :=
  String.mk (pyReplaceAux old.data new.data s.data.length s.data)

/-- Python `str.startswith(pre)`. -/
def pyStartsWith (s pre : String) : Bool :=
  pre.data.isPrefixOf s.data

/-- Python `str.endswith(suf)`. -/
def pyEndsWith (s suf : String) : Bool :=
  suf.data.isSuffixOf s.data

/-- Python `os.path.join(a, b)` for two components with `/` as separator. -/
def osJoin (a b : String) : String :=
  if pyStartsWith b "/" then b
  else if a = "" then b
  else if pyEndsWith a "/" then a ++ b
  else a ++ "/" ++ b

/-- The label normalization `result.replace(" ", "").replace(".", "")` from
`ExtensionMapper.download_info`. -/
def normalizeLabel (s : String) : String :=
  pyReplace (pyReplace s " " "") "." ""

/-- `ExtensionMapper` of observer.py.  The dict `known_types` is embedded as a
functional map; the remaining constructor arguments are kept as fields. -/
structure ExtensionMapper where
  known_types : String → Option String
  default : String
  api_url : String
  name_regex : String

/-- `ExtensionMapper.download_info`: one remote request for `extension`.  The
oracle `http` maps the request URL to the first match extracted from the
response body (`none` models any failure inside the `try` block: network
error, decode failure, or no match for `name_regex`).  Returns the resolved
label, the mapper with `known_types[extension] = result`, and the number of
remote requests issued (always 1). -/
def ExtensionMapper.download_info (m : ExtensionMapper)
    (http : String → Option String) (extension : String) :
    String × ExtensionMapper × Nat :=
  let result :=
    match http (osJoin m.api_url extension) with
    | some r => r
    | none => m.default
  let result := normalizeLabel result
  (result,
   { m with known_types := fun k => if k = extension then some result else m.known_types k },
   1)

/-- The extension extraction of `ExtensionMapper.get` (lines 113-114 of
observer.py): `origin = origin.lower()` followed by
`extension = origin.split(".")[-1]`, i.e. lowercase the base name and take
the last dot-separated segment. -/
def extensionOf (origin : String) : String :=
  (pySplit '.' (pyLower origin)).getLastD ""

/-- `ExtensionMapper.get`: computes the extension via `extensionOf` and
returns the cached category when present (`known_types[extension]`, zero
remote requests) or the result of `download_info` on a cache miss
(the `KeyError` path of the `try/except` at lines 116-119). -/
def ExtensionMapper.get (m : ExtensionMapper)
    (http : String → Option String) (origin : String) :
    String × ExtensionMapper × Nat :=
  match m.known_types (extensionOf origin) with
  | some v => (v, m, 0)
  | none => m.download_info http (extensionOf origin)

/-- The base-name extraction `event.src_path.split(os.path.sep)[-1]` from
`NewFileHander.on_modified` (`os.path.sep = "/"`). -/
def baseNameOf (p : String) : String :=
  (pySplit '/' p).getLastD ""

/-- A filesystem entry: regular file, directory, or symbolic link with its
target path. -/
inductive Entry : Type where
  | file : Entry
  | dir : Entry
  | symlink : String → Entry
deriving DecidableEq

/-- A flat filesystem: a map from absolute paths to entries. -/
def FS : Type := String → Option Entry

/-- Effect of `pathlib.Path(d).mkdir(parents=True, exist_ok=True)` on success:
the directory `d` exists afterwards (parent segments are not tracked
separately in this flat model). -/
def mkdirFS (fs : FS) (d : String) : FS :=
  fun p => if p = d then some Entry.dir else fs p

/-- Effect of `os.rename(src, dst)` on success: the entry at `src` now lives
at `dst` (overwriting `dst`) and `src` is gone. -/
def renameFS (fs : FS) (src dst : String) : FS :=
  fun p => if p = dst then fs src else if p = src then none else fs p

/-- Effect of `os.symlink(target, linkPath)` on success: a symbolic link to
`target` appears at `linkPath`. -/
def symlinkFS (fs : FS) (target linkPath : String) : FS :=
  fun p => if p = linkPath then some (Entry.symlink target) else fs p

/-- Effect of `os.remove(p0)` on success: the entry at `p0` is gone. -/
def removeFS (fs : FS) (p0 : String) : FS :=
  fun p => if p = p0 then none else fs p

/-- Decides which fallible syscalls of `on_modified` succeed.  A `false`
field means the corresponding call raises an OS error. -/
structure SysOracle where
  mkdirOk : Bool
  renameOk : Bool
  symlinkOk : Bool
  removeOk : Bool

/-- Constructor state of `NewFileHander`: the injected extension mapper, the
destination root, the exclusion patterns (each abstracted as the boolean
semantics of Python's start-anchored `re.match pattern` on the base name),
the settle delay and the transient-link duration. -/
structure HandlerConfig where
  mapper : ExtensionMapper
  destination_folder : String
  excluded : List (String → Bool)
  delay : Nat
  ln_duration : Nat

/-- Result of one run of `NewFileHander.on_modified`.  `trace` records the
filesystem snapshot after each mutating syscall in program order; `fsFinal`
is the last snapshot (or the initial filesystem when nothing mutated).
`result` is `.ok ()` when the method returns normally and `.error e` when a
Python exception escapes it.  `remoteCalls` counts HTTP requests made via the
extension mapper; `resolverInvoked` and `renameAttempted` record whether
`extension_mapper.get` and `os.rename` were reached. -/
structure HandlerRun where
  trace : List FS
  result : Except String Unit
  mapper : ExtensionMapper
  remoteCalls : Nat
  resolverInvoked : Bool
  renameAttempted : Bool
  fsFinal : FS

/-- `NewFileHander.on_modified` (lines 51-88 of observer.py), embedded over
the flat filesystem with a syscall oracle.  `time.sleep(self.delay)` and
`time.sleep(self.ln_duration)` change no modelled state and are noted by
comments.  The uncaught syscalls (`mkdir`, `os.symlink`, `os.remove`)
produce an `.error` outcome when the oracle fails them; only the
`os.rename` failure is caught (`try/except` at lines 73-79), logged, and
followed by a normal return. -/
def on_modified (cfg : HandlerConfig) (http : String → Option String)
    (orc : SysOracle) (fs : FS) (src_path : String) : HandlerRun :=
  if fs src_path ≠ some Entry.file then
    -- `if not os.path.isfile(event.src_path): return`
    ⟨[], Except.ok (), cfg.mapper, 0, false, false, fs⟩
  else
    let origin := baseNameOf src_path
    if cfg.excluded.any (fun pattern => pattern origin) then
      -- `if any((re.match(pattern, origin) for pattern in self.excluded)): return`
      ⟨[], Except.ok (), cfg.mapper, 0, false, false, fs⟩
    else
      -- `if self.delay: time.sleep(self.delay)` (no modelled effect)
      let res := cfg.mapper.get http origin
      let category := res.1
      let mapper := res.2.1
      let calls := res.2.2
      let destination_folder := osJoin cfg.destination_folder category
      if orc.mkdirOk = false then
        -- `mkdir` raised; the exception escapes on_modified
        ⟨[], Except.error "mkdir", mapper, calls, true, false, fs⟩
      else
        let fs1 := mkdirFS fs destination_folder
        let dst := osJoin destination_folder origin
        if orc.renameOk = false then
          -- `os.rename` raised; caught, logged, and the method returns
          ⟨[fs1], Except.ok (), mapper, calls, true, true, fs1⟩
        else
          let fs2 := renameFS fs1 src_path dst
          if cfg.ln_duration = 0 then
            ⟨[fs1, fs2], Except.ok (), mapper, calls, true, true, fs2⟩
          else if orc.symlinkOk = false then
            -- `os.symlink` raised; the exception escapes on_modified
            ⟨[fs1, fs2], Except.error "symlink", mapper, calls, true, true, fs2⟩
          else
            let fs3 := symlinkFS fs2 dst src_path
            -- `time.sleep(self.ln_duration)` (no modelled effect)
            if orc.removeOk = false then
              -- `os.remove` raised; the exception escapes on_modified
              ⟨[fs1, fs2, fs3], Except.error "remove", mapper, calls, true, true, fs3⟩
            else
              let fs4 := removeFS fs3 src_path
              ⟨[fs1, fs2, fs3, fs4], Except.ok (), mapper, calls, true, true, fs4⟩

/-- Concrete fixture: a mapper seeded with pdf ↦ PDF, default other. -/
def seedMapper : ExtensionMapper :=
  ⟨fun k => if k = "pdf" then some "PDF" else none, "other", "u/", "rx"⟩

/-- Concrete fixture: an HTTP oracle whose every request fails. -/
def httpNone : String → Option String := fun _ => none

/-- Concrete fixture: a filesystem holding the single file src/a.pdf. -/
def fsA : FS := fun p => if p = "src/a.pdf" then some Entry.file else none

/-- Concrete fixture: every syscall succeeds. -/
def orcAll : SysOracle := ⟨true, true, true, true⟩

/-- Concrete fixture: `os.rename` fails, everything else succeeds. -/
def orcNoRename : SysOracle := ⟨true, false, true, true⟩

/-- Concrete fixture: handler with no exclusions, no delay, no link duration. -/
def cfgPlain : HandlerConfig := ⟨seedMapper, "dest", [], 0, 0⟩

/-- Concrete fixture: handler with a 5-second transient-link duration. -/
def cfgLink : HandlerConfig := ⟨seedMapper, "dest", [], 0, 5⟩

theorem char_toNat_ofNat (n : Nat) (h : n.isValidChar) : (Char.ofNat n).toNat = n := by
  unfold Char.ofNat
  rw [dif_pos h]
  rfl

theorem toLower_ne_dot (c : Char) (h : c ≠ '.') : c.toLower ≠ '.' := by
  have hd : Char.toLower c =
      if c.toNat ≥ 65 ∧ c.toNat ≤ 90 then Char.ofNat (c.toNat + 32) else c := rfl
  rw [hd]
  split
  · intro he
    rename_i hc
    have hv : (c.toNat + 32).isValidChar := by
      refine Or.inl ?_
      have := hc.2
      omega
    have h1 : (Char.ofNat (c.toNat + 32)).toNat = c.toNat + 32 := char_toNat_ofNat _ hv
    rw [he] at h1
    have h2 : ('.' : Char).toNat = 46 := by decide
    rw [h2] at h1
    have := hc.1
    omega
  · exact h

theorem pySplitList_ne_nil (sep : Char) (l : List Char) : pySplitList sep l ≠ [] := by
  induction l with
  | nil => simp [pySplitList]
  | cons c cs ih =>
    simp only [pySplitList]
    split
    · simp
    · cases hr : pySplitList sep cs with
      | nil => simp
      | cons h t => simp [hr]

theorem pySplitList_length_two (sep : Char) (l : List Char) (h : sep ∈ l) :
    2 ≤ (pySplitList sep l).length := by
  induction l with
  | nil => cases h
  | cons c cs ih =>
    simp only [pySplitList]
    split
    · have := List.length_pos.mpr (pySplitList_ne_nil sep cs)
      simp only [List.length_cons]
      omega
    · rename_i hc
      have hcs : sep ∈ cs := by
        cases List.mem_cons.mp h with
        | inl he => exact absurd he.symm hc
        | inr hm => exact hm
      have h2 := ih hcs
      cases hr : pySplitList sep cs with
      | nil => exact absurd hr (pySplitList_ne_nil sep cs)
      | cons hd t =>
        rw [hr] at h2
        simpa using h2

theorem pySplitList_no_sep (sep : Char) (l : List Char) (h : sep ∉ l) :
    pySplitList sep l = [l] := by
  induction l with
  | nil => rfl
  | cons c cs ih =>
    simp only [pySplitList]
    have hc : ¬ c = sep := fun he => h (he ▸ List.mem_cons_self c cs)
    rw [if_neg hc, ih (fun hm => h (List.mem_cons_of_mem c hm))]

theorem pySplitList_getLast_append (sep : Char) (a b : List Char) :
    (pySplitList sep (a ++ sep :: b)).getLast? = (pySplitList sep b).getLast? := by
  induction a with
  | nil =>
    simp only [List.nil_append, pySplitList, if_pos rfl]
    cases hr : pySplitList sep b with
    | nil => exact absurd hr (pySplitList_ne_nil sep b)
    | cons h t => simp
  | cons c a ih =>
    simp only [List.cons_append, pySplitList]
    split
    · cases hr : pySplitList sep (a ++ sep :: b) with
      | nil => exact absurd hr (pySplitList_ne_nil sep _)
      | cons h t =>
        rw [List.getLast?_cons_cons, ← hr, ih]
    · cases hr : pySplitList sep (a ++ sep :: b) with
      | nil => exact absurd hr (pySplitList_ne_nil sep _)
      | cons h t =>
        have hlen : 2 ≤ (pySplitList sep (a ++ sep :: b)).length :=
          pySplitList_length_two sep _ (by simp)
        rw [hr] at hlen
        cases t with
        | nil => simp at hlen
        | cons t0 ts =>
          rw [← ih, hr]
          simp [List.getLast?_cons_cons]

theorem map_toLower_no_dot (l : List Char) (h : '.' ∉ l) : '.' ∉ l.map Char.toLower := by
  intro hm
  rcases List.mem_map.mp hm with ⟨c, hc, he⟩
  by_cases hcd : c = '.'
  · exact h (hcd ▸ hc)
  · exact toLower_ne_dot c hcd he

theorem get_eq_hit (m : ExtensionMapper) (http : String → Option String) (origin v : String)
    (h : m.known_types (extensionOf origin) = some v) :
    m.get http origin = (v, m, 0) := by
  unfold ExtensionMapper.get
  rw [h]

theorem get_eq_miss (m : ExtensionMapper) (http : String → Option String) (origin : String)
    (h : m.known_types (extensionOf origin) = none) :
    m.get http origin = m.download_info http (extensionOf origin) := by
  unfold ExtensionMapper.get
  rw [h]

theorem download_info_caches (m : ExtensionMapper) (http : String → Option String)
    (extension : String) :
    (m.download_info http extension).2.1.known_types extension
      = some (m.download_info http extension).1 := by
  unfold ExtensionMapper.download_info
  simp

/-- Claim C1 (amended): for every file base name, the name is lowercased and
the extension used for category lookup is everything after the LAST separator
dot in the name (the final dot-separated segment), so a name like
archive.tar.gz yields the extension gz. -/
theorem claim_C1 (a b : List Char) (hb : '.' ∉ b) :
    extensionOf (String.mk (a ++ '.' :: b)) = pyLower (String.mk b) := by
  have hdot : Char.toLower '.' = '.' := by decide
  have hb2 : '.' ∉ b.map Char.toLower := map_toLower_no_dot b hb
  show (pySplit '.' (pyLower (String.mk (a ++ '.' :: b)))).getLastD "" = _
  unfold pySplit pyLower
  simp only [List.getLastD_eq_getLast?, List.getLast?_map]
  rw [List.map_append, List.map_cons, hdot, pySplitList_getLast_append,
      pySplitList_no_sep '.' (List.map Char.toLower b) hb2]
  rfl

theorem claim_C1_witness :
    '.' ∉ "gz".data ∧
    extensionOf (String.mk ("archive.tar".data ++ '.' :: "gz".data)) = pyLower (String.mk "gz".data) :=
  ⟨by decide, claim_C1 "archive.tar".data "gz".data (by decide)⟩

/-- Counterexample to claim C1 as stated: the resolver takes the segment after
the last dot, so archive.tar.gz yields gz, not tar.gz. -/
theorem claim_C1_counterexample :
    extensionOf "archive.tar.gz" = "gz" ∧ extensionOf "archive.tar.gz" ≠ "tar.gz" := by
  constructor
  · decide
  · decide

/-- Claim C2: for every extension not present in the seed table, the first
resolve performs exactly one remote lookup, and every subsequent resolve of
the same name in the same process performs zero remote lookups and returns
the same category value (with the mapper state unchanged). -/
theorem claim_C2 (m : ExtensionMapper) (http : String → Option String) (origin : String)
    (h : m.known_types (extensionOf origin) = none) :
    (m.get http origin).2.2 = 1 ∧
    (m.get http origin).2.1.get http origin
      = ((m.get http origin).1, (m.get http origin).2.1, 0) := by
  rw [get_eq_miss m http origin h]
  refine ⟨rfl, ?_⟩
  exact get_eq_hit _ http origin _ (download_info_caches m http (extensionOf origin))

theorem claim_C2_witness :
    ((⟨fun _ => none, "other", "u/", "rx"⟩ : ExtensionMapper).known_types
        (extensionOf "a.xyz") = none) ∧
    (((⟨fun _ => none, "other", "u/", "rx"⟩ : ExtensionMapper).get
        (fun _ => some "Text File") "a.xyz").2.2 = 1 ∧
      ((⟨fun _ => none, "other", "u/", "rx"⟩ : ExtensionMapper).get
          (fun _ => some "Text File") "a.xyz").2.1.get (fun _ => some "Text File") "a.xyz"
        = (((⟨fun _ => none, "other", "u/", "rx"⟩ : ExtensionMapper).get
            (fun _ => some "Text File") "a.xyz").1,
           ((⟨fun _ => none, "other", "u/", "rx"⟩ : ExtensionMapper).get
            (fun _ => some "Text File") "a.xyz").2.1, 0)) :=
  ⟨rfl, claim_C2 ⟨fun _ => none, "other", "u/", "rx"⟩ (fun _ => some "Text File") "a.xyz" rfl⟩

/-- Claim C3: for every extension present in the seed table, resolve returns
the seeded value, leaves the mapper unchanged, and performs zero remote
lookups. -/
theorem claim_C3 (m : ExtensionMapper) (http : String → Option String) (origin v : String)
    (h : m.known_types (extensionOf origin) = some v) :
    m.get http origin = (v, m, 0) :=
  get_eq_hit m http origin v h

theorem claim_C3_witness :
    ((⟨fun k => if k = "pdf" then some "PDF" else none, "other", "u/", "rx"⟩ : ExtensionMapper).known_types
        (extensionOf "Report.PDF") = some "PDF") ∧
    ((⟨fun k => if k = "pdf" then some "PDF" else none, "other", "u/", "rx"⟩ : ExtensionMapper).get
        (fun _ => none) "Report.PDF"
      = ("PDF", ⟨fun k => if k = "pdf" then some "PDF" else none, "other", "u/", "rx"⟩, 0)) :=
  ⟨by decide, claim_C3 ⟨fun k => if k = "pdf" then some "PDF" else none, "other", "u/", "rx"⟩
    (fun _ => none) "Report.PDF" "PDF" (by decide)⟩

/-- Claim C4: if the remote lookup for an uncached extension fails in any way
(the oracle yields `none`), resolve returns the configured default category
(provided the default is invariant under the label normalization, as the
configured "other" is), stores it in the cache, and subsequent resolves hit
the cache with zero remote lookups. -/
theorem claim_C4 (m : ExtensionMapper) (http : String → Option String) (origin : String)
    (hmiss : m.known_types (extensionOf origin) = none)
    (hfail : http (osJoin m.api_url (extensionOf origin)) = none)
    (hdef : normalizeLabel m.default = m.default) :
    (m.get http origin).1 = m.default ∧
    (m.get http origin).2.1.known_types (extensionOf origin) = some m.default ∧
    (m.get http origin).2.1.get http origin
      = (m.default, (m.get http origin).2.1, 0) := by
  rw [get_eq_miss m http origin hmiss]
  have h1 : (m.download_info http (extensionOf origin)).1 = m.default := by
    unfold ExtensionMapper.download_info
    simp only [hfail]
    exact hdef
  have h2 : (m.download_info http (extensionOf origin)).2.1.known_types (extensionOf origin)
      = some m.default := by
    rw [← h1]
    exact download_info_caches m http (extensionOf origin)
  refine ⟨h1, h2, ?_⟩
  rw [get_eq_hit _ http origin _ h2]

theorem claim_C4_witness :
    ((⟨fun _ => none, "other", "u/", "rx"⟩ : ExtensionMapper).known_types
        (extensionOf "a.xyz") = none) ∧
    ((fun _ => (none : Option String))
        (osJoin "u/" (extensionOf "a.xyz")) = none) ∧
    (normalizeLabel "other" = "other") ∧
    (((⟨fun _ => none, "other", "u/", "rx"⟩ : ExtensionMapper).get (fun _ => none) "a.xyz").1
        = "other" ∧
      ((⟨fun _ => none, "other", "u/", "rx"⟩ : ExtensionMapper).get
          (fun _ => none) "a.xyz").2.1.known_types (extensionOf "a.xyz") = some "other" ∧
      ((⟨fun _ => none, "other", "u/", "rx"⟩ : ExtensionMapper).get
          (fun _ => none) "a.xyz").2.1.get (fun _ => none) "a.xyz"
        = ("other",
           ((⟨fun _ => none, "other", "u/", "rx"⟩ : ExtensionMapper).get
            (fun _ => none) "a.xyz").2.1, 0)) :=
  ⟨rfl, rfl, by decide,
   claim_C4 ⟨fun _ => none, "other", "u/", "rx"⟩ (fun _ => none) "a.xyz" rfl rfl (by decide)⟩

/-- Claim C10: for every base name containing no dot, the resolver uses the
entire lowercased base name as the extension key, and a seeded entry under
that key is returned without any remote lookup (the interface is total on
dotless names). -/
theorem claim_C10 (origin : String) (m : ExtensionMapper) (http : String → Option String)
    (h : '.' ∉ origin.data) :
    extensionOf origin = pyLower origin ∧
    (∀ v, m.known_types (pyLower origin) = some v → m.get http origin = (v, m, 0)) := by
  have hb2 : '.' ∉ origin.data.map Char.toLower := map_toLower_no_dot origin.data h
  have h1 : extensionOf origin = pyLower origin := by
    show (pySplit '.' (pyLower origin)).getLastD "" = _
    unfold pySplit pyLower
    simp only [List.getLastD_eq_getLast?, List.getLast?_map]
    rw [pySplitList_no_sep '.' (origin.data.map Char.toLower) hb2]
    rfl
  refine ⟨h1, fun v hv => ?_⟩
  exact get_eq_hit m http origin v (h1 ▸ hv)

theorem claim_C10_witness :
    '.' ∉ "README".data ∧
    (extensionOf "README" = pyLower "README" ∧
      (∀ v, (⟨fun k => if k = "readme" then some "Docs" else none, "other", "u/", "rx"⟩ :
          ExtensionMapper).known_types (pyLower "README") = some v →
        (⟨fun k => if k = "readme" then some "Docs" else none, "other", "u/", "rx"⟩ :
          ExtensionMapper).get (fun _ => none) "README" = (v,
            ⟨fun k => if k = "readme" then some "Docs" else none, "other", "u/", "rx"⟩, 0))) :=
  ⟨by decide, claim_C10 "README"
    ⟨fun k => if k = "readme" then some "Docs" else none, "other", "u/", "rx"⟩
    (fun _ => none) (by decide)⟩

theorem on_modified_excluded (cfg : HandlerConfig) (http : String → Option String)
    (orc : SysOracle) (fs : FS) (src_path : String)
    (hexc : cfg.excluded.any (fun pattern => pattern (baseNameOf src_path)) = true) :
    on_modified cfg http orc fs src_path
      = ⟨[], Except.ok (), cfg.mapper, 0, false, false, fs⟩ := by
  unfold on_modified
  split
  · rfl
  · rw [if_pos hexc]

theorem on_modified_rename_failed (cfg : HandlerConfig) (http : String → Option String)
    (orc : SysOracle) (fs : FS) (src_path : String)
    (hfile : fs src_path = some Entry.file)
    (hexc : cfg.excluded.any (fun pattern => pattern (baseNameOf src_path)) = false)
    (hmk : orc.mkdirOk = true) (hrn : orc.renameOk = false) :
    on_modified cfg http orc fs src_path
      = ⟨[mkdirFS fs (osJoin cfg.destination_folder
            (cfg.mapper.get http (baseNameOf src_path)).1)],
         Except.ok (),
         (cfg.mapper.get http (baseNameOf src_path)).2.1,
         (cfg.mapper.get http (baseNameOf src_path)).2.2,
         true, true,
         mkdirFS fs (osJoin cfg.destination_folder
            (cfg.mapper.get http (baseNameOf src_path)).1)⟩ := by
  simp [on_modified, hfile, hexc, hmk, hrn]

theorem on_modified_take_two (cfg : HandlerConfig) (http : String → Option String)
    (orc : SysOracle) (fs : FS) (src_path : String)
    (hfile : fs src_path = some Entry.file)
    (hexc : cfg.excluded.any (fun pattern => pattern (baseNameOf src_path)) = false)
    (hmk : orc.mkdirOk = true) (hrn : orc.renameOk = true) :
    (on_modified cfg http orc fs src_path).trace.take 2
      = [mkdirFS fs (osJoin cfg.destination_folder
            (cfg.mapper.get http (baseNameOf src_path)).1),
         renameFS
           (mkdirFS fs (osJoin cfg.destination_folder
              (cfg.mapper.get http (baseNameOf src_path)).1))
           src_path
           (osJoin (osJoin cfg.destination_folder
              (cfg.mapper.get http (baseNameOf src_path)).1)
              (baseNameOf src_path))] := by
  simp only [on_modified, hfile, hexc, hmk, hrn]
  simp only [ne_eq, not_true_eq_false, if_false, Bool.false_eq_true, ite_false,
    Bool.true_eq_false]
  split
  · rfl
  · split
    · rfl
    · split
      · rfl
      · rfl

theorem on_modified_full_link (cfg : HandlerConfig) (http : String → Option String)
    (orc : SysOracle) (fs : FS) (src_path : String)
    (hfile : fs src_path = some Entry.file)
    (hexc : cfg.excluded.any (fun pattern => pattern (baseNameOf src_path)) = false)
    (hmk : orc.mkdirOk = true) (hrn : orc.renameOk = true)
    (hln : cfg.ln_duration ≠ 0) (hsl : orc.symlinkOk = true) (hrm : orc.removeOk = true) :
    on_modified cfg http orc fs src_path
      = ⟨[mkdirFS fs (osJoin cfg.destination_folder
            (cfg.mapper.get http (baseNameOf src_path)).1),
          renameFS
            (mkdirFS fs (osJoin cfg.destination_folder
               (cfg.mapper.get http (baseNameOf src_path)).1))
            src_path
            (osJoin (osJoin cfg.destination_folder
               (cfg.mapper.get http (baseNameOf src_path)).1)
               (baseNameOf src_path)),
          symlinkFS
            (renameFS
              (mkdirFS fs (osJoin cfg.destination_folder
                 (cfg.mapper.get http (baseNameOf src_path)).1))
              src_path
              (osJoin (osJoin cfg.destination_folder
                 (cfg.mapper.get http (baseNameOf src_path)).1)
                 (baseNameOf src_path)))
            (osJoin (osJoin cfg.destination_folder
               (cfg.mapper.get http (baseNameOf src_path)).1)
               (baseNameOf src_path))
            src_path,
          removeFS
            (symlinkFS
              (renameFS
                (mkdirFS fs (osJoin cfg.destination_folder
                   (cfg.mapper.get http (baseNameOf src_path)).1))
                src_path
                (osJoin (osJoin cfg.destination_folder
                   (cfg.mapper.get http (baseNameOf src_path)).1)
                   (baseNameOf src_path)))
              (osJoin (osJoin cfg.destination_folder
                 (cfg.mapper.get http (baseNameOf src_path)).1)
                 (baseNameOf src_path))
              src_path)
            src_path],
         Except.ok (),
         (cfg.mapper.get http (baseNameOf src_path)).2.1,
         (cfg.mapper.get http (baseNameOf src_path)).2.2,
         true, true,
         removeFS
           (symlinkFS
             (renameFS
               (mkdirFS fs (osJoin cfg.destination_folder
                  (cfg.mapper.get http (baseNameOf src_path)).1))
               src_path
               (osJoin (osJoin cfg.destination_folder
                  (cfg.mapper.get http (baseNameOf src_path)).1)
                  (baseNameOf src_path)))
             (osJoin (osJoin cfg.destination_folder
                (cfg.mapper.get http (baseNameOf src_path)).1)
                (baseNameOf src_path))
             src_path)
           src_path⟩ := by
  simp [on_modified, hfile, hexc, hmk, hrn, hln, hsl, hrm]

theorem claim_C5 (cfg : HandlerConfig) (http : String → Option String)
    (orc : SysOracle) (fs : FS) (src_path : String)
    (hexc : cfg.excluded.any (fun pattern => pattern (baseNameOf src_path)) = true) :
    (on_modified cfg http orc fs src_path).resolverInvoked = false ∧
    (on_modified cfg http orc fs src_path).remoteCalls = 0 ∧
    (on_modified cfg http orc fs src_path).renameAttempted = false ∧
    (on_modified cfg http orc fs src_path).mapper = cfg.mapper ∧
    (on_modified cfg http orc fs src_path).fsFinal = fs ∧
    (on_modified cfg http orc fs src_path).result = Except.ok () := by
  rw [on_modified_excluded cfg http orc fs src_path hexc]
  exact ⟨rfl, rfl, rfl, rfl, rfl, rfl⟩

theorem claim_C5_witness :
    (HandlerConfig.mk ⟨fun _ => none, "other", "u/", "rx"⟩ "dest"
        [fun s => pyEndsWith s ".crdownload"] 0 0).excluded.any
      (fun pattern => pattern (baseNameOf "src/movie.crdownload")) = true ∧
    ((on_modified (HandlerConfig.mk ⟨fun _ => none, "other", "u/", "rx"⟩ "dest"
        [fun s => pyEndsWith s ".crdownload"] 0 0) (fun _ => none) ⟨true, true, true, true⟩
        (fun p => if p = "src/movie.crdownload" then some Entry.file else none)
        "src/movie.crdownload").resolverInvoked = false ∧
      (on_modified (HandlerConfig.mk ⟨fun _ => none, "other", "u/", "rx"⟩ "dest"
        [fun s => pyEndsWith s ".crdownload"] 0 0) (fun _ => none) ⟨true, true, true, true⟩
        (fun p => if p = "src/movie.crdownload" then some Entry.file else none)
        "src/movie.crdownload").remoteCalls = 0 ∧
      (on_modified (HandlerConfig.mk ⟨fun _ => none, "other", "u/", "rx"⟩ "dest"
        [fun s => pyEndsWith s ".crdownload"] 0 0) (fun _ => none) ⟨true, true, true, true⟩
        (fun p => if p = "src/movie.crdownload" then some Entry.file else none)
        "src/movie.crdownload").renameAttempted = false ∧
      (on_modified (HandlerConfig.mk ⟨fun _ => none, "other", "u/", "rx"⟩ "dest"
        [fun s => pyEndsWith s ".crdownload"] 0 0) (fun _ => none) ⟨true, true, true, true⟩
        (fun p => if p = "src/movie.crdownload" then some Entry.file else none)
        "src/movie.crdownload").mapper = ⟨fun _ => none, "other", "u/", "rx"⟩ ∧
      (on_modified (HandlerConfig.mk ⟨fun _ => none, "other", "u/", "rx"⟩ "dest"
        [fun s => pyEndsWith s ".crdownload"] 0 0) (fun _ => none) ⟨true, true, true, true⟩
        (fun p => if p = "src/movie.crdownload" then some Entry.file else none)
        "src/movie.crdownload").fsFinal
        = (fun p => if p = "src/movie.crdownload" then some Entry.file else none) ∧
      (on_modified (HandlerConfig.mk ⟨fun _ => none, "other", "u/", "rx"⟩ "dest"
        [fun s => pyEndsWith s ".crdownload"] 0 0) (fun _ => none) ⟨true, true, true, true⟩
        (fun p => if p = "src/movie.crdownload" then some Entry.file else none)
        "src/movie.crdownload").result = Except.ok ()) :=
  ⟨by decide, claim_C5 (HandlerConfig.mk ⟨fun _ => none, "other", "u/", "rx"⟩ "dest"
      [fun s => pyEndsWith s ".crdownload"] 0 0) (fun _ => none) ⟨true, true, true, true⟩
      (fun p => if p = "src/movie.crdownload" then some Entry.file else none)
      "src/movie.crdownload" (by decide)⟩

theorem claim_C6 (cfg : HandlerConfig) (http : String → Option String)
    (orc : SysOracle) (fs : FS) (src_path d dst : String)
    (hfile : fs src_path = some Entry.file)
    (hexc : cfg.excluded.any (fun pattern => pattern (baseNameOf src_path)) = false)
    (hmk : orc.mkdirOk = true) (hrn : orc.renameOk = true)
    (hd : d = osJoin cfg.destination_folder (cfg.mapper.get http (baseNameOf src_path)).1)
    (hdst : dst = osJoin d (baseNameOf src_path))
    (h1 : src_path ≠ d) (h2 : src_path ≠ dst) (h3 : d ≠ dst) :
    (on_modified cfg http orc fs src_path).trace.take 2
      = [mkdirFS fs d, renameFS (mkdirFS fs d) src_path dst] ∧
    mkdirFS fs d d = some Entry.dir ∧
    renameFS (mkdirFS fs d) src_path dst src_path = none ∧
    renameFS (mkdirFS fs d) src_path dst dst = some Entry.file ∧
    renameFS (mkdirFS fs d) src_path dst d = some Entry.dir ∧
    mkdirFS (mkdirFS fs d) d = mkdirFS fs d := by
  subst hdst
  subst hd
  refine ⟨on_modified_take_two cfg http orc fs src_path hfile hexc hmk hrn,
    ?_, ?_, ?_, ?_, ?_⟩
  · simp [mkdirFS]
  · simp [renameFS, h2]
  · simp [renameFS, mkdirFS, h1, hfile]
  · simp [renameFS, mkdirFS, h3, Ne.symm h1]
  · funext p
    unfold mkdirFS
    by_cases hp : p = osJoin cfg.destination_folder (cfg.mapper.get http (baseNameOf src_path)).1
    · simp [hp]
    · simp [hp]

theorem claim_C7 (cfg : HandlerConfig) (http : String → Option String)
    (orc : SysOracle) (fs : FS) (src_path d : String)
    (hfile : fs src_path = some Entry.file)
    (hexc : cfg.excluded.any (fun pattern => pattern (baseNameOf src_path)) = false)
    (hmk : orc.mkdirOk = true) (hrn : orc.renameOk = false)
    (hd : d = osJoin cfg.destination_folder (cfg.mapper.get http (baseNameOf src_path)).1)
    (h1 : src_path ≠ d) :
    (on_modified cfg http orc fs src_path).result = Except.ok () ∧
    (on_modified cfg http orc fs src_path).trace = [mkdirFS fs d] ∧
    (on_modified cfg http orc fs src_path).fsFinal = mkdirFS fs d ∧
    (on_modified cfg http orc fs src_path).fsFinal src_path = some Entry.file ∧
    (on_modified cfg http orc fs src_path).renameAttempted = true := by
  subst hd
  rw [on_modified_rename_failed cfg http orc fs src_path hfile hexc hmk hrn]
  refine ⟨rfl, rfl, rfl, ?_, rfl⟩
  simp [mkdirFS, h1, hfile]

theorem claim_C8 (cfg : HandlerConfig) (http : String → Option String)
    (orc : SysOracle) (fs : FS) (src_path d dst : String)
    (hfile : fs src_path = some Entry.file)
    (hexc : cfg.excluded.any (fun pattern => pattern (baseNameOf src_path)) = false)
    (hmk : orc.mkdirOk = true) (hrn : orc.renameOk = true)
    (hln : cfg.ln_duration ≠ 0)
    (hsl : orc.symlinkOk = true) (hrm : orc.removeOk = true)
    (hd : d = osJoin cfg.destination_folder (cfg.mapper.get http (baseNameOf src_path)).1)
    (hdst : dst = osJoin d (baseNameOf src_path)) :
    (on_modified cfg http orc fs src_path).trace.get? 2
      = some (symlinkFS (renameFS (mkdirFS fs d) src_path dst) dst src_path) ∧
    symlinkFS (renameFS (mkdirFS fs d) src_path dst) dst src_path src_path
      = some (Entry.symlink dst) ∧
    (on_modified cfg http orc fs src_path).fsFinal src_path = none ∧
    (on_modified cfg http orc fs src_path).result = Except.ok () := by
  subst hdst
  subst hd
  rw [on_modified_full_link cfg http orc fs src_path hfile hexc hmk hrn hln hsl hrm]
  refine ⟨rfl, ?_, ?_, rfl⟩
  · simp [symlinkFS]
  · simp [removeFS]

theorem claim_C9 (cfg : HandlerConfig) (http : String → Option String)
    (orc : SysOracle) (fs : FS) (src_path : String)
    (hmk : orc.mkdirOk = true)
    (hln : cfg.ln_duration = 0 ∨ (orc.symlinkOk = true ∧ orc.removeOk = true)) :
    (on_modified cfg http orc fs src_path).result = Except.ok () := by
  simp only [on_modified]
  split
  · rfl
  · split
    · rfl
    · split
      · rename_i hcond
        rw [hmk] at hcond
        exact absurd hcond (by decide)
      · split
        · rfl
        · split
          · rfl
          · rename_i hln0
            rcases hln with h0 | ⟨hs, hr⟩
            · exact absurd h0 hln0
            · split
              · rename_i hcond
                rw [hs] at hcond
                exact absurd hcond (by decide)
              · split
                · rename_i hcond
                  rw [hr] at hcond
                  exact absurd hcond (by decide)
                · rfl

theorem claim_C9_counterexample :
    (on_modified
      (HandlerConfig.mk ⟨fun k => if k = "xyz" then some "stuff" else none, "other", "u/", "rx"⟩
        "dest" [] 0 1)
      (fun _ => none) ⟨true, true, false, true⟩
      (fun p => if p = "src/a.xyz" then some Entry.file else none)
      "src/a.xyz").result = Except.error "symlink" := by
  rfl

theorem claim_C6_witness :
    fsA "src/a.pdf" = some Entry.file ∧
    cfgPlain.excluded.any (fun pattern => pattern (baseNameOf "src/a.pdf")) = false ∧
    orcAll.mkdirOk = true ∧
    orcAll.renameOk = true ∧
    "dest/PDF" = osJoin cfgPlain.destination_folder
      (cfgPlain.mapper.get httpNone (baseNameOf "src/a.pdf")).1 ∧
    "dest/PDF/a.pdf" = osJoin "dest/PDF" (baseNameOf "src/a.pdf") ∧
    "src/a.pdf" ≠ "dest/PDF" ∧
    "src/a.pdf" ≠ "dest/PDF/a.pdf" ∧
    "dest/PDF" ≠ "dest/PDF/a.pdf" ∧
    ((on_modified cfgPlain httpNone orcAll fsA "src/a.pdf").trace.take 2
        = [mkdirFS fsA "dest/PDF",
           renameFS (mkdirFS fsA "dest/PDF") "src/a.pdf" "dest/PDF/a.pdf"] ∧
      mkdirFS fsA "dest/PDF" "dest/PDF" = some Entry.dir ∧
      renameFS (mkdirFS fsA "dest/PDF") "src/a.pdf" "dest/PDF/a.pdf" "src/a.pdf" = none ∧
      renameFS (mkdirFS fsA "dest/PDF") "src/a.pdf" "dest/PDF/a.pdf" "dest/PDF/a.pdf"
        = some Entry.file ∧
      renameFS (mkdirFS fsA "dest/PDF") "src/a.pdf" "dest/PDF/a.pdf" "dest/PDF"
        = some Entry.dir ∧
      mkdirFS (mkdirFS fsA "dest/PDF") "dest/PDF" = mkdirFS fsA "dest/PDF") :=
  ⟨by decide, by decide, rfl, rfl, by decide, by decide, by decide, by decide, by decide,
   claim_C6 cfgPlain httpNone orcAll fsA "src/a.pdf" "dest/PDF" "dest/PDF/a.pdf"
     (by decide) (by decide) rfl rfl (by decide) (by decide) (by decide) (by decide) (by decide)⟩

theorem claim_C7_witness :
    fsA "src/a.pdf" = some Entry.file ∧
    cfgPlain.excluded.any (fun pattern => pattern (baseNameOf "src/a.pdf")) = false ∧
    orcNoRename.mkdirOk = true ∧
    orcNoRename.renameOk = false ∧
    "dest/PDF" = osJoin cfgPlain.destination_folder
      (cfgPlain.mapper.get httpNone (baseNameOf "src/a.pdf")).1 ∧
    "src/a.pdf" ≠ "dest/PDF" ∧
    ((on_modified cfgPlain httpNone orcNoRename fsA "src/a.pdf").result = Except.ok () ∧
      (on_modified cfgPlain httpNone orcNoRename fsA "src/a.pdf").trace
        = [mkdirFS fsA "dest/PDF"] ∧
      (on_modified cfgPlain httpNone orcNoRename fsA "src/a.pdf").fsFinal
        = mkdirFS fsA "dest/PDF" ∧
      (on_modified cfgPlain httpNone orcNoRename fsA "src/a.pdf").fsFinal "src/a.pdf"
        = some Entry.file ∧
      (on_modified cfgPlain httpNone orcNoRename fsA "src/a.pdf").renameAttempted = true) :=
  ⟨by decide, by decide, rfl, rfl, by decide, by decide,
   claim_C7 cfgPlain httpNone orcNoRename fsA "src/a.pdf" "dest/PDF"
     (by decide) (by decide) rfl rfl (by decide) (by decide)⟩

theorem claim_C8_witness :
    fsA "src/a.pdf" = some Entry.file ∧
    cfgLink.excluded.any (fun pattern => pattern (baseNameOf "src/a.pdf")) = false ∧
    orcAll.mkdirOk = true ∧
    orcAll.renameOk = true ∧
    cfgLink.ln_duration ≠ 0 ∧
    orcAll.symlinkOk = true ∧
    orcAll.removeOk = true ∧
    "dest/PDF" = osJoin cfgLink.destination_folder
      (cfgLink.mapper.get httpNone (baseNameOf "src/a.pdf")).1 ∧
    "dest/PDF/a.pdf" = osJoin "dest/PDF" (baseNameOf "src/a.pdf") ∧
    ((on_modified cfgLink httpNone orcAll fsA "src/a.pdf").trace.get? 2
        = some (symlinkFS (renameFS (mkdirFS fsA "dest/PDF") "src/a.pdf" "dest/PDF/a.pdf")
            "dest/PDF/a.pdf" "src/a.pdf") ∧
      symlinkFS (renameFS (mkdirFS fsA "dest/PDF") "src/a.pdf" "dest/PDF/a.pdf")
          "dest/PDF/a.pdf" "src/a.pdf" "src/a.pdf"
        = some (Entry.symlink "dest/PDF/a.pdf") ∧
      (on_modified cfgLink httpNone orcAll fsA "src/a.pdf").fsFinal "src/a.pdf" = none ∧
      (on_modified cfgLink httpNone orcAll fsA "src/a.pdf").result = Except.ok ()) :=
  ⟨by decide, by decide, rfl, rfl, by decide, rfl, rfl, by decide, by decide,
   claim_C8 cfgLink httpNone orcAll fsA "src/a.pdf" "dest/PDF" "dest/PDF/a.pdf"
     (by decide) (by decide) rfl rfl (by decide) rfl rfl (by decide) (by decide)⟩

theorem claim_C9_witness :
    orcAll.mkdirOk = true ∧
    (cfgPlain.ln_duration = 0 ∨ (orcAll.symlinkOk = true ∧ orcAll.removeOk = true)) ∧
    (on_modified cfgPlain httpNone orcAll fsA "src/a.pdf").result = Except.ok () :=
  ⟨rfl, Or.inl rfl,
   claim_C9 cfgPlain httpNone orcAll fsA "src/a.pdf" rfl (Or.inl rfl)⟩
